import Mathlib

/-!
# Verification of the job-queue service (src/services/jobQueue.ts)

A shallow embedding of the job queue and worker dispatch engine:
the Task Executor (processJob), the Standalone Dispatcher
(processInMemoryJobs), the Distributed Dispatcher's failure handler
(the worker 'failed' event handler set up in setupWorker), and the
Job Lifecycle API (enqueueJob, updateJobStatus, updateJobForRetry,
listJobs, retryJob, initializeJobQueue).

Conventions of the embedding:
* timestamps are natural numbers (milliseconds);
* thrown JavaScript errors are `Except String` values, and
  getErrorMessage on them is the identity;
* the drizzle-backed jobs / taskLogs relations are lists of rows,
  an UPDATE ... WHERE id = x maps the matching rows, an INSERT appends;
* JavaScript truthiness of an optional string (absent, null or empty
  means falsy) is `truthyString`;
* the external collaborators (executeWorkflowById, the Redis
  connection probe) are oracle parameters.
-/

namespace JobQueue

/-- Payload travelling with a queue job (the source's TaskJobData):
the job id, the task type tag, and the optional params.taskId. -/
structure TaskJobData where
  id : String
  taskType : String
  paramsTaskId : Option String
  deriving DecidableEq

/-- The taskData JSON object a taskLogs row may carry; the source
reads only its workflowId field, which may be absent or empty. -/
structure WorkflowRef where
  workflowId : Option String
  deriving DecidableEq

/-- A row of the taskLogs relation, restricted to the columns the
job queue reads and writes. -/
structure TaskLogRow where
  id : String
  taskType : String
  taskData : Option WorkflowRef
  status : String
  error : Option String
  result : Option String
  completedAt : Option Nat
  deriving DecidableEq

/-- JavaScript truthiness for an optional string: absent and the
empty string are falsy. -/
def truthyString : Option String → Option String
  | none => none
  | some s => if s = "" then none else some s

/-- UPDATE ... WHERE id = key over a list of rows: apply f to every
row whose id (read by getId) is key. -/
def updById {α : Type} (getId : α → String) (key : String) (f : α → α)
    (l : List α) : List α :=
  l.map fun r => if getId r == key then f r else r

/-- db.update(taskLogs).set(...).where(eq(taskLogs.id, tid)):
apply f to every row whose id is tid. -/
def updateTaskLog (tasks : List TaskLogRow) (tid : String)
    (f : TaskLogRow → TaskLogRow) : List TaskLogRow :=
  updById (fun r => r.id) tid f tasks

/-- set({ status: 'processing' }) on a taskLogs row. -/
def setTaskProcessing (r : TaskLogRow) : TaskLogRow :=
  { r with status := "processing" }

/-- set({ status: 'completed', completedAt, result: workflow message }). -/
def setTaskWorkflowCompleted (t : Nat) (w : String) (r : TaskLogRow) : TaskLogRow :=
  { r with
      status := "completed"
      completedAt := some t
      result := some ("Scheduled workflow " ++ w ++ " executed successfully") }

/-- set({ status: 'completed', completedAt, result: generic message }). -/
def setTaskGenericCompleted (t : Nat) (r : TaskLogRow) : TaskLogRow :=
  { r with
      status := "completed"
      completedAt := some t
      result := some "Task processed successfully" }

/-- set({ status: 'failed', error: errorMessage }). -/
def setTaskFailed (e : String) (r : TaskLogRow) : TaskLogRow :=
  { r with status := "failed", error := some e }

/-- The try-block of processJob (jobQueue.ts lines 271-321): extract
params.taskId (throw if falsy), mark the task processing, select the
task row (throw if absent), then branch on the task type.  The oracle
exec is executeWorkflowById; its error is the delegated executor
throwing.  Returns the updated taskLogs store and the outcome. -/
def processJobTry (exec : String → Except String Unit) (t : Nat)
    (tasks : List TaskLogRow) (data : TaskJobData) :
    List TaskLogRow × Except String Bool :=
  match truthyString data.paramsTaskId with
  | none => (tasks, Except.error "Job data missing taskId in params")
  | some tid =>
    let tasks1 := updateTaskLog tasks tid setTaskProcessing
    match tasks1.find? fun r => r.id == tid with
    | none => (tasks1, Except.error ("Task not found: " ++ tid))
    | some task =>
      if task.taskType = "scheduledWorkflow" then
        match task.taskData with
        | some td =>
          match truthyString td.workflowId with
          | some w =>
            match exec w with
            | Except.error e => (tasks1, Except.error e)
            | Except.ok _ =>
              (updateTaskLog tasks1 tid (setTaskWorkflowCompleted t w), Except.ok true)
          | none => (tasks1, Except.ok true)
        | none =>
          (updateTaskLog tasks1 tid (setTaskGenericCompleted t), Except.ok true)
      else
        (updateTaskLog tasks1 tid (setTaskGenericCompleted t), Except.ok true)

/-- processJob (jobQueue.ts lines 270-347): the try-block wrapped in
the catch that, when the payload carries a truthy taskId, marks that
task record failed with the error message and then re-throws. -/
def processJob (exec : String → Except String Unit) (t : Nat)
    (tasks : List TaskLogRow) (data : TaskJobData) :
    List TaskLogRow × Except String Bool :=
  match processJobTry exec t tasks data with
  | (ts, Except.ok b) => (ts, Except.ok b)
  | (ts, Except.error e) =>
    match truthyString data.paramsTaskId with
    | some tid => (updateTaskLog ts tid (setTaskFailed e), Except.error e)
    | none => (ts, Except.error e)

/-- An entry of the in-memory fallback job list (the source's
InMemoryJob interface). -/
structure InMemoryJob where
  id : String
  taskId : String
  status : String
  attempts : Nat
  maxAttempts : Nat
  lastError : Option String
  data : TaskJobData
  createdAt : Nat
  updatedAt : Nat
  nextRunAt : Nat
  lastRunAt : Option Nat
  deriving DecidableEq

/-- A row of the jobs relation (the Persistent Job Store). -/
structure JobRow where
  id : String
  taskId : String
  status : String
  attempts : Nat
  maxAttempts : Nat
  lastError : Option String
  nextRunAt : Nat
  createdAt : Nat
  updatedAt : Nat
  deriving DecidableEq

/-- A message handed to the broker by jobQueue.add: the options object
of the BullMQ add call (job id, name, priority, retry budget, backoff
base delay when a backoff policy is attached). -/
structure BrokerEntry where
  jobId : String
  name : String
  priority : Nat
  attempts : Nat
  backoffDelay : Option Nat
  deriving DecidableEq

/-- The module state of jobQueue.ts together with the two database
relations it reads and writes. -/
structure SysState where
  inMemoryMode : Bool
  mem : List InMemoryJob
  dbJobs : List JobRow
  tasks : List TaskLogRow
  broker : List BrokerEntry
  deriving DecidableEq

/-- Lines 247-248 of processInMemoryJobs: entering the execution of a
due job sets its status to the string "running" and stamps lastRunAt. -/
def startJobRun (t : Nat) (j : InMemoryJob) : InMemoryJob :=
  { j with status := "running", lastRunAt := some t }

/-- The catch branch of processInMemoryJobs (lines 252-265): increment
attempts, record the error, then either mark the job failed (attempts
has reached maxAttempts) or return it to pending with an exponential
backoff keyed off the incremented attempt count. -/
def handleInMemoryFailure (t : Nat) (e : String) (j : InMemoryJob) : InMemoryJob :=
  let a := j.attempts + 1
  if j.maxAttempts ≤ a then
    { j with attempts := a, lastError := some e, status := "failed", updatedAt := t }
  else
    { j with
        attempts := a
        lastError := some e
        status := "pending"
        nextRunAt := t + 2 ^ a * 5000
        updatedAt := t }

/-- One loop iteration of processInMemoryJobs over a selected job:
mark it running, invoke the Task Executor on its payload, then either
complete it or run the failure branch. -/
def runJobStep (exec : String → Except String Unit) (t : Nat)
    (tasks : List TaskLogRow) (j : InMemoryJob) : List TaskLogRow × InMemoryJob :=
  let started := startJobRun t j
  match processJob exec t tasks j.data with
  | (tasks2, Except.ok _) => (tasks2, { started with status := "completed", updatedAt := t })
  | (tasks2, Except.error e) => (tasks2, handleInMemoryFailure t e started)

/-- The selection predicate of the scan (line 243):
status === 'pending' && nextRunAt <= now. -/
def dueForRun (t : Nat) (j : InMemoryJob) : Bool :=
  j.status == "pending" && decide (j.nextRunAt ≤ t)

/-- processInMemoryJobs (lines 240-267): one timer firing.  The jobs
satisfying the selection predicate at scan start are executed strictly
sequentially in list order, threading the taskLogs store through the
executions; unselected entries are untouched.  Returns the final
taskLogs store, the final job list, and the trace of executed job ids
in execution order. -/
def processInMemoryJobs (exec : String → Except String Unit) (t : Nat) :
    List InMemoryJob → List TaskLogRow →
    List TaskLogRow × List InMemoryJob × List String
  | [], tasks => (tasks, [], [])
  | j :: rest, tasks =>
    if dueForRun t j then
      let p := runJobStep exec t tasks j
      let q := processInMemoryJobs exec t rest p.1
      (q.1, p.2 :: q.2.1, j.id :: q.2.2)
    else
      let q := processInMemoryJobs exec t rest tasks
      (q.1, j :: q.2.1, q.2.2)

/-- The effect of one timer firing of the Standalone Dispatcher on the
whole system state. -/
def applyScan (exec : String → Except String Unit) (t : Nat) (s : SysState) : SysState :=
  let r := processInMemoryJobs exec t s.mem s.tasks
  { s with tasks := r.1, mem := r.2.1 }

/-- The default value of the priority parameter in the enqueueJob
signature (line 352). -/
def enqueueDefaultPriority : Nat := 1

/-- enqueueJob (lines 352-399): fresh job id; in Distributed Mode the
broker receives the message (priority as given, attempts 3,
exponential backoff with base delay 5000), otherwise the in-memory
list gets a pending entry with attempts 0 and maxAttempts 3; in both
modes a pending Job Store row is inserted. -/
def enqueueJob (t : Nat) (jobId taskId : String) (priority : Nat) (s : SysState) : SysState :=
  let jobData : TaskJobData := ⟨jobId, "processTask", some taskId⟩
  let newMemJob : InMemoryJob := ⟨jobId, taskId, "pending", 0, 3, none, jobData, t, t, t, none⟩
  let newEntry : BrokerEntry := ⟨jobId, "processTask", priority, 3, some 5000⟩
  let newRow : JobRow := ⟨jobId, taskId, "pending", 0, 3, none, t, t, t⟩
  let s1 :=
    if s.inMemoryMode then { s with mem := s.mem ++ [newMemJob] }
    else { s with broker := s.broker ++ [newEntry] }
  { s1 with dbJobs := s1.dbJobs ++ [newRow] }

/-- The fields of a job record that getJobById consumers read. -/
structure JobView where
  status : String
  taskId : String
  attempts : Nat
  maxAttempts : Nat
  deriving DecidableEq

/-- getJobById (lines 404-410): the in-memory entry in Standalone
Mode, the first matching Job Store row otherwise. -/
def getJobById (s : SysState) (jobId : String) : Option JobView :=
  if s.inMemoryMode then
    (s.mem.find? fun j => j.id == jobId).map fun j =>
      ⟨j.status, j.taskId, j.attempts, j.maxAttempts⟩
  else
    (s.dbJobs.find? fun r => r.id == jobId).map fun r =>
      ⟨r.status, r.taskId, r.attempts, r.maxAttempts⟩

/-- UPDATE jobs SET ... WHERE id = jobId: apply f to every matching row. -/
def updRows (jobId : String) (f : JobRow → JobRow) (rows : List JobRow) : List JobRow :=
  updById (fun r => r.id) jobId f rows

/-- The in-memory find-then-mutate pattern: update the first entry
with the given id, leave the rest untouched. -/
def updFirstMem (jobId : String) (f : InMemoryJob → InMemoryJob) :
    List InMemoryJob → List InMemoryJob
  | [] => []
  | j :: rest =>
    if j.id == jobId then f j :: rest else j :: updFirstMem jobId f rest

/-- updateJobStatus (lines 415-433): set status and updatedAt; the
in-memory branch overwrites lastError only for a truthy error, the
database branch writes the error column as given. -/
def updateJobStatus (t : Nat) (jobId status : String) (error : Option String)
    (s : SysState) : SysState :=
  if s.inMemoryMode then
    { s with mem := updFirstMem jobId (fun j =>
        { j with
            status := status
            updatedAt := t
            lastError := match truthyString error with
              | some e => some e
              | none => j.lastError }) s.mem }
  else
    { s with dbJobs := updRows jobId (fun r =>
        { r with
            status := status
            updatedAt := t
            lastError := match error with
              | some e => some e
              | none => r.lastError }) s.dbJobs }

/-- updateJobForRetry (lines 438-460): status back to pending,
attempts incremented by one, error recorded, nextRunAt as given. -/
def updateJobForRetry (t : Nat) (jobId error : String) (nextRunAt : Nat)
    (s : SysState) : SysState :=
  if s.inMemoryMode then
    { s with mem := updFirstMem jobId (fun j =>
        { j with
            status := "pending"
            attempts := j.attempts + 1
            lastError := some error
            nextRunAt := nextRunAt
            updatedAt := t }) s.mem }
  else
    { s with dbJobs := updRows jobId (fun r =>
        { r with
            status := "pending"
            attempts := r.attempts + 1
            lastError := some error
            nextRunAt := nextRunAt
            updatedAt := t }) s.dbJobs }

/-- The worker 'failed' event handler installed by setupWorker
(lines 200-213): look the job up; if its recorded attempts have
reached maxAttempts mark it failed, otherwise schedule a retry with
exponential backoff computed from the recorded attempt count. -/
def workerFailed (t : Nat) (jobId error : String) (s : SysState) : SysState :=
  match getJobById s jobId with
  | none => s
  | some jobData =>
    if jobData.maxAttempts ≤ jobData.attempts then
      updateJobStatus t jobId "failed" (some error) s
    else
      updateJobForRetry t jobId error (t + 2 ^ jobData.attempts * 5000) s

/-- listJobs, in-memory branch (lines 466-471): optional status
filter, then the first limit entries of the insertion-ordered list. -/
def listJobs (status : Option String) (limit : Nat) (mem : List InMemoryJob) :
    List InMemoryJob :=
  match status with
  | some st => (mem.filter fun j => j.status == st).take limit
  | none => mem.take limit

/-- The ORDER BY createdAt relation of the listJobs database query. -/
def byCreatedAt (a b : JobRow) : Prop := a.createdAt ≤ b.createdAt

instance : DecidableRel byCreatedAt := fun a b => Nat.decLe a.createdAt b.createdAt

instance : IsTotal JobRow byCreatedAt := ⟨fun a b => Nat.le_total a.createdAt b.createdAt⟩

instance : IsTrans JobRow byCreatedAt := ⟨fun _ _ _ => Nat.le_trans⟩

/-- listJobs, database branch (lines 473-483): the meaning of the
generated query SELECT .. WHERE status = st ORDER BY createdAt
LIMIT n (ordering realised here by a sort on createdAt). -/
def listJobsDb (status : Option String) (limit : Nat) (rows : List JobRow) :
    List JobRow :=
  let base := match status with
    | some st => rows.filter fun r => r.status == st
    | none => rows
  (List.insertionSort byCreatedAt base).take limit

/-- The try-block of retryJob (lines 490-531): throw for an unknown
job or a status other than failed; otherwise reset the Job Store row
(pending, attempts 0, nextRunAt now) and, in Distributed Mode, add the
job back to the broker with priority 10 and attempts 3. -/
def retryJobTry (t : Nat) (jobId : String) (s : SysState) :
    Except String (SysState × Bool) :=
  match getJobById s jobId with
  | none => Except.error ("Job not found: " ++ jobId)
  | some jobData =>
    if jobData.status ≠ "failed" then
      Except.error ("Cannot retry job with status: " ++ jobData.status)
    else
      let s1 := { s with dbJobs := updRows jobId (fun r =>
        { r with status := "pending", attempts := 0, nextRunAt := t, updatedAt := t }) s.dbJobs }
      let s2 :=
        if s1.inMemoryMode then s1
        else { s1 with broker := s1.broker ++ [⟨jobId, "processTask", 10, 3, none⟩] }
      Except.ok (s2, true)

/-- retryJob (lines 489-546): the try-block wrapped in the catch that
logs and returns false, so the caller never sees an exception. -/
def retryJob (t : Nat) (jobId : String) (s : SysState) : SysState × Bool :=
  match retryJobTry t jobId s with
  | Except.ok r => r
  | Except.error _ => (s, false)

/-- The try-block of initializeJobQueue (lines 57-146), with the
force-standalone flag and the outcomes of the external connection
steps as parameters: throw when forced in-memory, propagate a
connection or ping failure, throw when the bullmq Queue class is
missing; on success commit Distributed Mode (inMemoryMode false). -/
def initializeJobQueueTry (force : Bool) (connect ping : Except String Unit)
    (queueClassFound : Bool) : Except String Bool :=
  if force then Except.error "Forcing in-memory queue mode"
  else
    match connect with
    | Except.error e => Except.error e
    | Except.ok _ =>
      match ping with
      | Except.error e => Except.error e
      | Except.ok _ =>
        if queueClassFound then Except.ok false
        else Except.error "Could not find Queue class in bullmq module"

/-- initializeJobQueue (lines 56-163): any exception of the try-block
is caught (logged as a warning) and commits Standalone Mode, so the
function always completes normally; the returned boolean is the
committed inMemoryMode flag. -/
def initializeJobQueue (force : Bool) (connect ping : Except String Unit)
    (queueClassFound : Bool) : Bool :=
  match initializeJobQueueTry force connect ping queueClassFound with
  | Except.ok m => m
  | Except.error _ => true

/-- The operations through which jobs are reachable, as claim C1
enumerates them: enqueueJob (with a fresh uuid, modelled by the
freshness hypotheses), the standalone dispatch step (the timer only
runs in Standalone Mode), the distributed failed-handler (worker
events only exist in Distributed Mode; it invokes updateJobStatus or
updateJobForRetry), and manual retryJob. -/
inductive Step : SysState → SysState → Prop
  | enqueue (t : Nat) (jobId taskId : String) (priority : Nat) (s : SysState)
      (hmem : ∀ j ∈ s.mem, j.id ≠ jobId) (hdb : ∀ r ∈ s.dbJobs, r.id ≠ jobId) :
      Step s (enqueueJob t jobId taskId priority s)
  | scan (t : Nat) (exec : String → Except String Unit) (s : SysState)
      (hmode : s.inMemoryMode = true) :
      Step s (applyScan exec t s)
  | failedEvent (t : Nat) (jobId error : String) (s : SysState)
      (hmode : s.inMemoryMode = false) :
      Step s (workerFailed t jobId error s)
  | retry (t : Nat) (jobId : String) (s : SysState) :
      Step s (retryJob t jobId s).1

/-- The same operations without manual retryJob, for the
stays-failed part of claim C1. -/
inductive NonRetryStep : SysState → SysState → Prop
  | enqueue (t : Nat) (jobId taskId : String) (priority : Nat) (s : SysState)
      (hmem : ∀ j ∈ s.mem, j.id ≠ jobId) (hdb : ∀ r ∈ s.dbJobs, r.id ≠ jobId) :
      NonRetryStep s (enqueueJob t jobId taskId priority s)
  | scan (t : Nat) (exec : String → Except String Unit) (s : SysState)
      (hmode : s.inMemoryMode = true) :
      NonRetryStep s (applyScan exec t s)
  | failedEvent (t : Nat) (jobId error : String) (s : SysState)
      (hmode : s.inMemoryMode = false) :
      NonRetryStep s (workerFailed t jobId error s)

/-- States reachable from a start state (empty job stores, a committed
mode, arbitrary pre-existing task logs) through the queue's
operations. -/
inductive Reachable : SysState → Prop
  | init (mode : Bool) (tasks : List TaskLogRow) :
      Reachable ⟨mode, [], [], tasks, []⟩
  | step {s s' : SysState} : Reachable s → Step s s' → Reachable s'

/-- Per-entry invariant of the in-memory list: attempts are bounded by
maxAttempts, and a pending entry still has an attempt left. -/
def memJobInv (j : InMemoryJob) : Prop :=
  j.attempts ≤ j.maxAttempts ∧ (j.status = "pending" → j.attempts < j.maxAttempts)

/-- Per-row invariant of the Job Store: attempts are bounded by
maxAttempts, and a failed row has exhausted them. -/
def dbRowInv (r : JobRow) : Prop :=
  r.attempts ≤ r.maxAttempts ∧ (r.status = "failed" → r.maxAttempts ≤ r.attempts)

/-- The inductive invariant of the queue: the per-job bounds, unique
ids in both stores, and an empty in-memory list in Distributed Mode. -/
def StateInv (s : SysState) : Prop :=
  (∀ j ∈ s.mem, memJobInv j) ∧ (∀ r ∈ s.dbJobs, dbRowInv r) ∧
  (s.mem.map fun j => j.id).Nodup ∧ (s.dbJobs.map fun r => r.id).Nodup ∧
  (s.inMemoryMode = false → s.mem = [])

/-- The status of the first Job Store row with the given id. -/
def dbStatusOf (s : SysState) (jobId : String) : Option String :=
  (s.dbJobs.find? fun r => r.id == jobId).map fun r => r.status

/-- The status of the first in-memory entry with the given id. -/
def memStatusOf (s : SysState) (jobId : String) : Option String :=
  (s.mem.find? fun j => j.id == jobId).map fun j => j.status

section UpdByIdLemmas

variable {α : Type} {getId : α → String} {key other : String} {f : α → α} {l : List α}

theorem mem_updById {r' : α} (h : r' ∈ updById getId key f l) :
    ∃ r ∈ l, (if getId r == key then f r else r) = r' := by
  simpa [updById] using h

theorem mem_updById_of_mem {r : α} (h : r ∈ l) :
    (if getId r == key then f r else r) ∈ updById getId key f l := by
  simp only [updById]
  exact List.mem_map.2 ⟨r, h, rfl⟩

theorem updById_map_getId (hf : ∀ r, getId (f r) = getId r) :
    (updById getId key f l).map getId = l.map getId := by
  have hp : (getId ∘ fun r => if getId r == key then f r else r) = getId := by
    funext r
    by_cases h : getId r = key <;> simp [h, hf]
  rw [updById, List.map_map, hp]

theorem find?_updById_self (hf : ∀ r, getId (f r) = getId r) :
    (updById getId key f l).find? (fun r => getId r == key) =
      (l.find? fun r => getId r == key).map f := by
  have hp : ((fun r => getId r == key) ∘ fun r => if getId r == key then f r else r)
      = fun r => getId r == key := by
    funext r
    by_cases h : getId r = key <;> simp [h, hf]
  rw [updById, List.find?_map, hp]
  cases hfind : l.find? fun r => getId r == key with
  | none => rfl
  | some x =>
    have hx := List.find?_some hfind
    simp only [beq_iff_eq] at hx
    simp [hx]

theorem find?_updById_ne (hf : ∀ r, getId (f r) = getId r) (hne : other ≠ key) :
    (updById getId key f l).find? (fun r => getId r == other) =
      l.find? fun r => getId r == other := by
  have hp : ((fun r => getId r == other) ∘ fun r => if getId r == key then f r else r)
      = fun r => getId r == other := by
    funext r
    by_cases h : getId r = key <;> simp [h, hf]
  rw [updById, List.find?_map, hp]
  cases hfind : l.find? fun r => getId r == other with
  | none => rfl
  | some x =>
    have hx := List.find?_some hfind
    simp only [beq_iff_eq] at hx
    have hxk : ¬getId x = key := by
      rw [hx]
      exact hne
    simp [hxk]

end UpdByIdLemmas

theorem find?_append_of_some {α : Type} {p : α → Bool} {l l' : List α} {x : α}
    (h : l.find? p = some x) : (l ++ l').find? p = some x := by
  rw [List.find?_append, h]
  rfl

theorem dueForRun_status {t : Nat} {j : InMemoryJob} (h : dueForRun t j = true) :
    j.status = "pending" := by
  simp only [dueForRun, Bool.and_eq_true, beq_iff_eq] at h
  exact h.1

theorem runJobStep_frame (exec : String → Except String Unit) (t : Nat)
    (tasks : List TaskLogRow) (j : InMemoryJob) :
    ((runJobStep exec t tasks j).2).id = j.id ∧
    ((runJobStep exec t tasks j).2).taskId = j.taskId ∧
    ((runJobStep exec t tasks j).2).maxAttempts = j.maxAttempts ∧
    ((runJobStep exec t tasks j).2).createdAt = j.createdAt ∧
    ((runJobStep exec t tasks j).2).data = j.data := by
  simp only [runJobStep]
  rcases processJob exec t tasks j.data with ⟨ts, r⟩
  cases r with
  | ok b => exact ⟨rfl, rfl, rfl, rfl, rfl⟩
  | error e =>
    simp only [handleInMemoryFailure, startJobRun]
    split <;> exact ⟨rfl, rfl, rfl, rfl, rfl⟩

theorem runJobStep_id (exec : String → Except String Unit) (t : Nat)
    (tasks : List TaskLogRow) (j : InMemoryJob) :
    ((runJobStep exec t tasks j).2).id = j.id :=
  (runJobStep_frame exec t tasks j).1

theorem runJobStep_memJobInv (exec : String → Except String Unit) (t : Nat)
    (tasks : List TaskLogRow) (j : InMemoryJob)
    (hlt : j.attempts < j.maxAttempts) : memJobInv (runJobStep exec t tasks j).2 := by
  simp only [runJobStep]
  rcases processJob exec t tasks j.data with ⟨ts, r⟩
  cases r with
  | ok b =>
    refine ⟨le_of_lt hlt, fun hps => ?_⟩
    exact absurd hps (by simp [startJobRun])
  | error e =>
    simp only [handleInMemoryFailure, startJobRun]
    by_cases hm : j.maxAttempts ≤ j.attempts + 1
    · rw [if_pos hm]
      exact ⟨Nat.succ_le_of_lt hlt, fun hps => by simp at hps⟩
    · rw [if_neg hm]
      exact ⟨le_of_lt (Nat.lt_of_not_le hm), fun _ => Nat.lt_of_not_le hm⟩

theorem scan_trace (exec : String → Except String Unit) (t : Nat) :
    ∀ (mem : List InMemoryJob) (tasks : List TaskLogRow),
    (processInMemoryJobs exec t mem tasks).2.2 =
      (mem.filter (dueForRun t)).map fun j => j.id := by
  intro mem
  induction mem with
  | nil => intro tasks; rfl
  | cons j rest ih =>
    intro tasks
    by_cases h : dueForRun t j
    · simp only [processInMemoryJobs, if_pos h, List.filter_cons, h, if_true,
        List.map_cons]
      rw [ih]
    · simp only [processInMemoryJobs, if_neg h, List.filter_cons, h]
      simp only [Bool.false_eq_true, if_false]
      rw [ih]

theorem scan_ids (exec : String → Except String Unit) (t : Nat) :
    ∀ (mem : List InMemoryJob) (tasks : List TaskLogRow),
    ((processInMemoryJobs exec t mem tasks).2.1.map fun j => j.id) =
      mem.map fun j => j.id := by
  intro mem
  induction mem with
  | nil => intro tasks; rfl
  | cons j rest ih =>
    intro tasks
    by_cases h : dueForRun t j
    · simp only [processInMemoryJobs, if_pos h, List.map_cons]
      rw [ih, runJobStep_id]
    · simp only [processInMemoryJobs, if_neg h, List.map_cons]
      rw [ih]

theorem scan_memJobInv (exec : String → Except String Unit) (t : Nat) :
    ∀ (mem : List InMemoryJob) (tasks : List TaskLogRow),
    (∀ j ∈ mem, memJobInv j) →
    ∀ j' ∈ (processInMemoryJobs exec t mem tasks).2.1, memJobInv j' := by
  intro mem
  induction mem with
  | nil => intro tasks _ j' hj'; simp [processInMemoryJobs] at hj'
  | cons j rest ih =>
    intro tasks hinv j' hj'
    by_cases h : dueForRun t j
    · simp only [processInMemoryJobs, if_pos h, List.mem_cons] at hj'
      rcases hj' with rfl | hj'
      · have hj := hinv j (List.mem_cons_self j rest)
        exact runJobStep_memJobInv exec t tasks j (hj.2 (dueForRun_status h))
      · exact ih _ (fun a ha => hinv a (List.mem_cons_of_mem j ha)) j' hj'
    · simp only [processInMemoryJobs, if_neg h, List.mem_cons] at hj'
      rcases hj' with rfl | hj'
      · exact hinv j' (List.mem_cons_self j' rest)
      · exact ih _ (fun a ha => hinv a (List.mem_cons_of_mem j ha)) j' hj'

theorem scan_failed_stable (exec : String → Except String Unit) (t : Nat) :
    ∀ (mem : List InMemoryJob) (tasks : List TaskLogRow) (id : String),
    ((mem.find? fun j => j.id == id).map fun j => j.status) = some "failed" →
    (((processInMemoryJobs exec t mem tasks).2.1.find? fun j => j.id == id).map
      fun j => j.status) = some "failed" := by
  intro mem
  induction mem with
  | nil => intro tasks id h; simp at h
  | cons j rest ih =>
    intro tasks id h
    by_cases hid : j.id = id
    · rw [List.find?_cons_of_pos _ (by simpa using hid)] at h
      simp only [Option.map] at h
      injection h with h
      by_cases hd : dueForRun t j
      · exact absurd (dueForRun_status hd) (by simp [h])
      · simp only [processInMemoryJobs, if_neg hd]
        rw [List.find?_cons_of_pos _ (by simpa using hid)]
        simp [h]
    · rw [List.find?_cons_of_neg _ (by simpa using hid)] at h
      by_cases hd : dueForRun t j
      · simp only [processInMemoryJobs, if_pos hd]
        rw [List.find?_cons_of_neg _ (by rw [runJobStep_id]; simpa using hid)]
        exact ih _ _ h
      · simp only [processInMemoryJobs, if_neg hd]
        rw [List.find?_cons_of_neg _ (by simpa using hid)]
        exact ih _ _ h

theorem jobRow_unique {rows : List JobRow} (hnd : (rows.map fun r => r.id).Nodup)
    {r r' : JobRow} (hr : r ∈ rows) (hr' : r' ∈ rows) (h : r.id = r'.id) :
    r = r' :=
  List.inj_on_of_nodup_map hnd hr hr' h

theorem nodup_updById {α : Type} (getId : α → String) (key : String) (f : α → α)
    (l : List α) (h : (l.map getId).Nodup) (hf : ∀ r, getId (f r) = getId r) :
    ((updById getId key f l).map getId).Nodup := by
  rw [updById_map_getId hf]
  exact h

theorem nodup_map_append_fresh {α : Type} {getId : α → String} {l : List α} {x : α}
    (hnd : (l.map getId).Nodup) (hfresh : ∀ a ∈ l, getId a ≠ getId x) :
    ((l ++ [x]).map getId).Nodup := by
  rw [List.map_append, List.nodup_append_comm]
  rw [show ([x].map getId ++ l.map getId) = getId x :: l.map getId from rfl]
  rw [List.nodup_cons]
  refine ⟨?_, hnd⟩
  intro hc
  rcases List.mem_map.1 hc with ⟨a, ha, hga⟩
  exact hfresh a ha hga

theorem stateInv_init (mode : Bool) (tasks : List TaskLogRow) :
    StateInv ⟨mode, [], [], tasks, []⟩ := by
  refine ⟨?_, ?_, ?_, ?_, fun _ => rfl⟩ <;> simp

theorem stateInv_enqueue (t : Nat) (jobId taskId : String) (priority : Nat)
    (s : SysState) (hinv : StateInv s)
    (hmem : ∀ j ∈ s.mem, j.id ≠ jobId) (hdb : ∀ r ∈ s.dbJobs, r.id ≠ jobId) :
    StateInv (enqueueJob t jobId taskId priority s) := by
  obtain ⟨him, hidb, hndm, hndb, hmemnil⟩ := hinv
  by_cases hm : s.inMemoryMode
  · simp only [enqueueJob, if_pos hm]
    refine ⟨?_, ?_, ?_, ?_, ?_⟩
    · intro j hj
      rcases List.mem_append.1 hj with hj | hj
      · exact him j hj
      · rw [List.mem_singleton.1 hj]
        exact ⟨show (0:Nat) ≤ 3 by decide, fun _ => show (0:Nat) < 3 by decide⟩
    · intro r hr
      rcases List.mem_append.1 hr with hr | hr
      · exact hidb r hr
      · rw [List.mem_singleton.1 hr]
        exact ⟨show (0:Nat) ≤ 3 by decide,
          fun h => absurd h (show ¬"pending" = "failed" by decide)⟩
    · exact nodup_map_append_fresh hndm hmem
    · exact nodup_map_append_fresh hndb hdb
    · intro hf
      rw [hm] at hf
      cases hf
  · simp only [enqueueJob, if_neg hm]
    refine ⟨him, ?_, hndm, ?_, fun _ => hmemnil (Bool.eq_false_iff.2 hm)⟩
    · intro r hr
      rcases List.mem_append.1 hr with hr | hr
      · exact hidb r hr
      · rw [List.mem_singleton.1 hr]
        exact ⟨show (0:Nat) ≤ 3 by decide,
          fun h => absurd h (show ¬"pending" = "failed" by decide)⟩
    · exact nodup_map_append_fresh hndb hdb

theorem stateInv_scan (exec : String → Except String Unit) (t : Nat) (s : SysState)
    (hinv : StateInv s) : StateInv (applyScan exec t s) := by
  obtain ⟨him, hidb, hndm, hndb, hmemnil⟩ := hinv
  refine ⟨?_, hidb, ?_, hndb, ?_⟩
  · exact scan_memJobInv exec t s.mem s.tasks him
  · show ((processInMemoryJobs exec t s.mem s.tasks).2.1.map fun j => j.id).Nodup
    rw [scan_ids]
    exact hndm
  · intro hf
    have hnil := hmemnil hf
    show (processInMemoryJobs exec t s.mem s.tasks).2.1 = []
    rw [hnil]
    rfl

theorem stateInv_workerFailed (t : Nat) (jobId error : String) (s : SysState)
    (hinv : StateInv s) (hmode : s.inMemoryMode = false) :
    StateInv (workerFailed t jobId error s) := by
  obtain ⟨him, hidb, hndm, hndb, hmemnil⟩ := hinv
  cases hg : getJobById s jobId with
  | none =>
    rw [workerFailed, hg]
    exact ⟨him, hidb, hndm, hndb, hmemnil⟩
  | some v =>
    have hrow : ∃ r, s.dbJobs.find? (fun r => r.id == jobId) = some r ∧
        v = ⟨r.status, r.taskId, r.attempts, r.maxAttempts⟩ := by
      rw [getJobById, hmode] at hg
      simp only [Bool.false_eq_true, if_false] at hg
      rcases Option.map_eq_some'.1 hg with ⟨r, hr, hv⟩
      exact ⟨r, hr, hv.symm⟩
    obtain ⟨r, hr, hvr⟩ := hrow
    have hrmem := List.mem_of_find?_eq_some hr
    have hrid : r.id = jobId := by simpa using List.find?_some hr
    rw [workerFailed, hg]
    show StateInv (if v.maxAttempts ≤ v.attempts
      then updateJobStatus t jobId "failed" (some error) s
      else updateJobForRetry t jobId error (t + 2 ^ v.attempts * 5000) s)
    by_cases hcap : v.maxAttempts ≤ v.attempts
    · rw [if_pos hcap]
      rw [updateJobStatus, hmode]
      simp only [Bool.false_eq_true, if_false]
      refine ⟨him, ?_, hndm, ?_, fun _ => hmemnil hmode⟩
      · intro r' hr'
        rcases mem_updById hr' with ⟨r'', hr'', heq⟩
        by_cases hid : r''.id = jobId
        · rw [if_pos (by simpa using hid)] at heq
          have : r'' = r := jobRow_unique hndb hr'' hrmem (hid.trans hrid.symm)
          subst this
          rw [← heq]
          refine ⟨(hidb r'' hr'').1, fun _ => ?_⟩
          rw [hvr] at hcap
          exact hcap
        · rw [if_neg (by simpa using hid)] at heq
          rw [← heq]
          exact hidb r'' hr''
      · exact nodup_updById _ _ _ _ hndb fun r => rfl
    · rw [if_neg hcap]
      rw [updateJobForRetry, hmode]
      simp only [Bool.false_eq_true, if_false]
      refine ⟨him, ?_, hndm, ?_, fun _ => hmemnil hmode⟩
      · intro r' hr'
        rcases mem_updById hr' with ⟨r'', hr'', heq⟩
        by_cases hid : r''.id = jobId
        · rw [if_pos (by simpa using hid)] at heq
          have : r'' = r := jobRow_unique hndb hr'' hrmem (hid.trans hrid.symm)
          subst this
          rw [← heq]
          have hlt : r''.attempts < r''.maxAttempts := by
            rw [hvr] at hcap
            exact Nat.lt_of_not_le hcap
          exact ⟨Nat.succ_le_of_lt hlt, fun h => by simp at h⟩
        · rw [if_neg (by simpa using hid)] at heq
          rw [← heq]
          exact hidb r'' hr''
      · exact nodup_updById _ _ _ _ hndb fun r => rfl

theorem retryJob_fst_cases (t : Nat) (jobId : String) (s : SysState) :
    (retryJob t jobId s).1 = s ∨
    ∃ brokerNew, (retryJob t jobId s).1 =
      { s with
          dbJobs := updRows jobId (fun r =>
            { r with status := "pending", attempts := 0, nextRunAt := t, updatedAt := t }) s.dbJobs
          broker := brokerNew } := by
  cases hv : getJobById s jobId with
  | none =>
    left
    simp [retryJob, retryJobTry, hv]
  | some v =>
    by_cases hst : v.status = "failed"
    · right
      by_cases hm : s.inMemoryMode
      · exact ⟨s.broker, by simp [retryJob, retryJobTry, hv, hst, hm, updRows]⟩
      · exact ⟨s.broker ++ [⟨jobId, "processTask", 10, 3, none⟩],
          by simp [retryJob, retryJobTry, hv, hst, hm, updRows]⟩
    · left
      simp [retryJob, retryJobTry, hv, hst]

theorem stateInv_retry (t : Nat) (jobId : String) (s : SysState)
    (hinv : StateInv s) : StateInv (retryJob t jobId s).1 := by
  obtain ⟨him, hidb, hndm, hndb, hmemnil⟩ := hinv
  rcases retryJob_fst_cases t jobId s with h | ⟨b, h⟩
  · rw [h]
    exact ⟨him, hidb, hndm, hndb, hmemnil⟩
  · rw [h]
    refine ⟨him, ?_, hndm, ?_, fun hf => hmemnil hf⟩
    · intro r' hr'
      rcases mem_updById hr' with ⟨r'', hr'', heq⟩
      by_cases hid : r''.id = jobId
      · rw [if_pos (by simpa using hid)] at heq
        rw [← heq]
        exact ⟨Nat.zero_le _, fun hcontra => absurd hcontra (show ¬"pending" = "failed" by decide)⟩
      · rw [if_neg (by simpa using hid)] at heq
        rw [← heq]
        exact hidb r'' hr''
    · exact nodup_updById _ _ _ _ hndb fun r => rfl

theorem step_stateInv {s s' : SysState} (hinv : StateInv s) (hstep : Step s s') :
    StateInv s' := by
  cases hstep with
  | enqueue t jobId taskId priority s hmem hdb =>
    exact stateInv_enqueue t jobId taskId priority s hinv hmem hdb
  | scan t exec s hmode => exact stateInv_scan exec t s hinv
  | failedEvent t jobId error s hmode =>
    exact stateInv_workerFailed t jobId error s hinv hmode
  | retry t jobId s => exact stateInv_retry t jobId s hinv

theorem reachable_stateInv {s : SysState} (h : Reachable s) : StateInv s := by
  induction h with
  | init mode tasks => exact stateInv_init mode tasks
  | step hr hstep ih => exact step_stateInv ih hstep

theorem find?_updRows_self (jobId : String) (f : JobRow → JobRow) (rows : List JobRow)
    (hf : ∀ r, (f r).id = r.id) :
    (updRows jobId f rows).find? (fun row => row.id == jobId) =
      (rows.find? fun row => row.id == jobId).map f :=
  find?_updById_self hf

theorem find?_updRows_ne (jobId : String) (f : JobRow → JobRow) (rows : List JobRow)
    (hf : ∀ r, (f r).id = r.id) {other : String} (hne : other ≠ jobId) :
    (updRows jobId f rows).find? (fun row => row.id == other) =
      rows.find? fun row => row.id == other :=
  find?_updById_ne hf hne

theorem workerFailed_terminal (t : Nat) (jobId e : String) (s : SysState) (r : JobRow)
    (hmode : s.inMemoryMode = false)
    (hfind : s.dbJobs.find? (fun row => row.id == jobId) = some r)
    (hcap : r.maxAttempts ≤ r.attempts) :
    dbStatusOf (workerFailed t jobId e s) jobId = some "failed" := by
  have hg : getJobById s jobId = some ⟨r.status, r.taskId, r.attempts, r.maxAttempts⟩ := by
    rw [getJobById, hmode]
    simp [hfind]
  simp only [workerFailed, hg]
  rw [if_pos hcap]
  rw [updateJobStatus, hmode]
  simp only [Bool.false_eq_true, if_false, dbStatusOf]
  rw [find?_updRows_self]
  · rw [hfind]
    rfl
  · intro r
    rfl

theorem nonretry_failed_stable {s s' : SysState} (hinv : StateInv s)
    (hstep : NonRetryStep s s') (id : String) :
    (dbStatusOf s id = some "failed" → dbStatusOf s' id = some "failed") ∧
    (memStatusOf s id = some "failed" → memStatusOf s' id = some "failed") := by
  obtain ⟨him, hidb, hndm, hndb, hmemnil⟩ := hinv
  cases hstep with
  | enqueue t jobId taskId priority s hmem hdb =>
    constructor
    · intro h
      rcases Option.map_eq_some'.1 h with ⟨r, hfind, hstat⟩
      by_cases hm : s.inMemoryMode
      · simp only [enqueueJob, if_pos hm, dbStatusOf]
        rw [find?_append_of_some hfind]
        simp [hstat]
      · simp only [enqueueJob, if_neg hm, dbStatusOf]
        rw [find?_append_of_some hfind]
        simp [hstat]
    · intro h
      rcases Option.map_eq_some'.1 h with ⟨j, hfind, hstat⟩
      by_cases hm : s.inMemoryMode
      · simp only [enqueueJob, if_pos hm, memStatusOf]
        rw [find?_append_of_some hfind]
        simp [hstat]
      · simp only [enqueueJob, if_neg hm, memStatusOf]
        rw [hfind]
        simp [hstat]
  | scan t exec s hmode =>
    refine ⟨fun h => h, fun h => ?_⟩
    exact scan_failed_stable exec t s.mem s.tasks id h
  | failedEvent t jobId e s hmode =>
    constructor
    · intro h
      by_cases hid : id = jobId
      · subst hid
        rcases Option.map_eq_some'.1 h with ⟨r, hfind, hstat⟩
        have hcap : r.maxAttempts ≤ r.attempts :=
          (hidb r (List.mem_of_find?_eq_some hfind)).2 hstat
        exact workerFailed_terminal t id e s r hmode hfind hcap
      · cases hg : getJobById s jobId with
        | none =>
          rw [workerFailed, hg]
          exact h
        | some v =>
          simp only [workerFailed, hg]
          by_cases hcap : v.maxAttempts ≤ v.attempts
          · rw [if_pos hcap, updateJobStatus, hmode]
            simp only [Bool.false_eq_true, if_false, dbStatusOf]
            rw [find?_updRows_ne]
            · exact h
            · intro r
              rfl
            · exact hid
          · rw [if_neg hcap, updateJobForRetry, hmode]
            simp only [Bool.false_eq_true, if_false, dbStatusOf]
            rw [find?_updRows_ne]
            · exact h
            · intro r
              rfl
            · exact hid
    · intro h
      exfalso
      rw [memStatusOf, hmemnil hmode] at h
      simp at h

/-- A workflow executor that always throws "boom". -/
def boomExec : String → Except String Unit := fun _ => Except.error "boom"

/-- A workflow executor that always succeeds. -/
def okExec : String → Except String Unit := fun _ => Except.ok ()

/-- A task record whose execution delegates to the workflow executor
(so a throwing executor makes every job execution fail). -/
def scenarioBTask : TaskLogRow :=
  ⟨"t1", "scheduledWorkflow", some ⟨some "w1"⟩, "pending", none, none, none⟩

/-- Standalone Mode at time 0 with one freshly enqueued job for t1. -/
def scenarioBStart : SysState :=
  enqueueJob 0 "j1" "t1" 1 ⟨true, [], [], [scenarioBTask], []⟩

/-- Three timer firings at 0ms, 10000ms and 30000ms, each hitting the
always-throwing executor (the scan times match the exponential
backoff, so each scan executes the job once). -/
def scenarioBFinal : SysState :=
  applyScan boomExec 30000 (applyScan boomExec 10000 (applyScan boomExec 0 scenarioBStart))

/-- A plain task record processed by the generic completion path. -/
def scenarioATask : TaskLogRow :=
  ⟨"t1", "processTask", none, "pending", none, none, none⟩

/-- The in-memory entry enqueueJob appends for scenario A. -/
def scenarioAJob : InMemoryJob :=
  ⟨"j1", "t1", "pending", 0, 3, none, ⟨"j1", "processTask", some "t1"⟩, 0, 0, 0, none⟩

/-- Standalone Mode at time 0 with one enqueued job for the plain task. -/
def scenarioAStart : SysState :=
  enqueueJob 0 "j1" "t1" 1 ⟨true, [], [], [scenarioATask], []⟩

/-- One timer firing with an always-succeeding executor. -/
def scenarioAFinal : SysState := applyScan okExec 0 scenarioAStart

/-- Claim C1: through the queue's operations (enqueueJob with a fresh
id, the standalone dispatch step, the distributed failed-handler -
which is the only caller of updateJobForRetry - and manual retryJob),
every reachable job has attempts bounded by maxAttempts; a failure
handled when the attempt count has reached maxAttempts leaves the job
failed (standalone: the incremented count reaches the bound;
distributed: the stored count has reached the bound); and every
operation other than a manual retryJob keeps a failed job failed, in
both the in-memory list and the Job Store. -/
theorem C1_attempts_bounded_failed_terminal :
    (∀ s, Reachable s →
      (∀ j ∈ s.mem, j.attempts ≤ j.maxAttempts) ∧
      (∀ r ∈ s.dbJobs, r.attempts ≤ r.maxAttempts)) ∧
    (∀ (t : Nat) (e : String) (j : InMemoryJob), j.maxAttempts ≤ j.attempts + 1 →
      (handleInMemoryFailure t e j).status = "failed") ∧
    (∀ (t : Nat) (jobId e : String) (s : SysState) (r : JobRow),
      s.inMemoryMode = false →
      s.dbJobs.find? (fun row => row.id == jobId) = some r →
      r.maxAttempts ≤ r.attempts →
      dbStatusOf (workerFailed t jobId e s) jobId = some "failed") ∧
    (∀ s s', Reachable s → NonRetryStep s s' → ∀ id,
      (dbStatusOf s id = some "failed" → dbStatusOf s' id = some "failed") ∧
      (memStatusOf s id = some "failed" → memStatusOf s' id = some "failed")) := by
  refine ⟨?_, ?_, ?_, ?_⟩
  · intro s hs
    obtain ⟨him, hidb, _, _, _⟩ := reachable_stateInv hs
    exact ⟨fun j hj => (him j hj).1, fun r hr => (hidb r hr).1⟩
  · intro t e j h
    simp only [handleInMemoryFailure]
    rw [if_pos h]
  · intro t jobId e s r hmode hfind hcap
    exact workerFailed_terminal t jobId e s r hmode hfind hcap
  · intro s s' hs hstep id
    exact nonretry_failed_stable (reachable_stateInv hs) hstep id

/-- Witness for C1: the bound holds in the concrete reachable state
with one enqueued job, and a concrete failure at the attempt ceiling
is marked failed. -/
theorem C1_attempts_bounded_failed_terminal_witness :
    (∀ j ∈ (enqueueJob 0 "j1" "t1" 1 ⟨true, [], [], [], []⟩).mem,
      j.attempts ≤ j.maxAttempts) ∧
    (handleInMemoryFailure 5000 "boom"
      ⟨"j1", "t1", "running", 2, 3, none, ⟨"j1", "processTask", some "t1"⟩,
        0, 0, 0, none⟩).status = "failed" := by
  constructor
  · exact (C1_attempts_bounded_failed_terminal.1 _
      (Reachable.step (Reachable.init true [])
        (Step.enqueue 0 "j1" "t1" 1 _ (by simp) (by simp)))).1
  · exact C1_attempts_bounded_failed_terminal.2.1 5000 "boom" _ (by decide)

/-- Claim C2: one failed standalone execution of a job with attempts
below maxAttempts increments attempts by exactly one, records the
error, and either returns the job to pending with
nextRunAt = now + 2^attempts * 5000 computed from the incremented
count, or - when the incremented count reaches maxAttempts - marks it
failed; and the concrete always-boom scenario with maxAttempts 3 ends
after three executions with status failed, lastError boom, attempts 3. -/
theorem C2_standalone_failure_backoff :
    (∀ (t : Nat) (e : String) (j : InMemoryJob),
      (j.attempts + 1 < j.maxAttempts →
        handleInMemoryFailure t e j =
          { j with
              attempts := j.attempts + 1
              status := "pending"
              lastError := some e
              nextRunAt := t + 2 ^ (j.attempts + 1) * 5000
              updatedAt := t }) ∧
      (j.attempts + 1 = j.maxAttempts →
        handleInMemoryFailure t e j =
          { j with
              attempts := j.attempts + 1
              status := "failed"
              lastError := some e
              updatedAt := t })) ∧
    (scenarioBFinal.mem.map fun j => (j.status, j.attempts, j.lastError)) =
      [("failed", 3, some "boom")] := by
  constructor
  · intro t e j
    constructor
    · intro h1
      simp only [handleInMemoryFailure]
      rw [if_neg (Nat.not_le.mpr h1)]
    · intro h2
      simp only [handleInMemoryFailure]
      rw [if_pos (le_of_eq h2.symm)]
  · rfl

/-- Witness for C2: the backoff equation applied to a concrete job at
concrete times. -/
theorem C2_standalone_failure_backoff_witness :
    handleInMemoryFailure 0 "boom" scenarioAJob =
      { scenarioAJob with
          attempts := 1
          status := "pending"
          lastError := some "boom"
          nextRunAt := 10000
          updatedAt := 0 } :=
  (C2_standalone_failure_backoff.1 0 "boom" scenarioAJob).1 (by decide)

/-- Claim C7: one scan of the Standalone Dispatcher executes exactly
the jobs that are pending with nextRunAt at or before the scan time,
strictly sequentially in list order (the execution trace equals the
filtered list, in order); the selection predicate says precisely
status pending and nextRunAt at or before now; and under unique ids a
job that is not pending (in particular processing, completed or
failed) or whose nextRunAt is in the future is never executed. -/
theorem C7_scan_executes_only_due_pending :
    ∀ (exec : String → Except String Unit) (t : Nat) (mem : List InMemoryJob)
      (tasks : List TaskLogRow),
      ((processInMemoryJobs exec t mem tasks).2.2 =
        (mem.filter (dueForRun t)).map fun j => j.id) ∧
      (∀ j : InMemoryJob, dueForRun t j = true ↔
        (j.status = "pending" ∧ j.nextRunAt ≤ t)) ∧
      ((mem.map fun j => j.id).Nodup →
        ∀ j ∈ mem, j.status ≠ "pending" ∨ t < j.nextRunAt →
          j.id ∉ (processInMemoryJobs exec t mem tasks).2.2) := by
  intro exec t mem tasks
  refine ⟨scan_trace exec t mem tasks, ?_, ?_⟩
  · intro j
    simp [dueForRun]
  · intro hnd j hj hnot hmemtrace
    rw [scan_trace] at hmemtrace
    rcases List.mem_map.1 hmemtrace with ⟨j', hj', hid⟩
    have hj'mem : j' ∈ mem := List.mem_of_mem_filter hj'
    have hdue : dueForRun t j' = true := List.of_mem_filter hj'
    have : j' = j := List.inj_on_of_nodup_map hnd hj'mem hj hid
    subst this
    simp only [dueForRun, Bool.and_eq_true, beq_iff_eq, decide_eq_true_eq] at hdue
    rcases hnot with hnot | hnot
    · exact hnot hdue.1
    · exact Nat.not_le.mpr hnot hdue.2

/-- Witness for C7: a concrete scan over a two-job list where only the
due pending job is executed. -/
theorem C7_scan_executes_only_due_pending_witness :
    ("j2" : String) ∉ (processInMemoryJobs okExec 0
      [scenarioAJob,
       ⟨"j2", "t2", "failed", 3, 3, some "x", ⟨"j2", "processTask", some "t2"⟩,
         0, 0, 0, none⟩] [scenarioATask]).2.2 := by
  have h := (C7_scan_executes_only_due_pending okExec 0
    [scenarioAJob,
     ⟨"j2", "t2", "failed", 3, 3, some "x", ⟨"j2", "processTask", some "t2"⟩,
       0, 0, 0, none⟩] [scenarioATask]).2.2
  exact h (by decide)
    ⟨"j2", "t2", "failed", 3, 3, some "x", ⟨"j2", "processTask", some "t2"⟩, 0, 0, 0, none⟩
    (by decide) (Or.inl (by decide))

/-- Claim C8, evaluated at its failing input: in the standalone
success path the in-flight status written by the dispatcher is the
string "running", not "processing" (the spec's status set and the
repository's own JobStatus type have no "running"); everything else
the claim states holds: the job ends completed with attempts 0 and
lastError, maxAttempts and nextRunAt unchanged, and only status,
lastRunAt and updatedAt change. -/
theorem C8_success_path_uses_running_not_processing :
    scenarioAStart.mem = [scenarioAJob] ∧
    (startJobRun 0 scenarioAJob).status = "running" ∧
    "running" ≠ "processing" ∧
    (scenarioAFinal.mem.map fun j =>
      (j.status, j.attempts, j.lastError, j.maxAttempts, j.nextRunAt)) =
      [("completed", 0, none, 3, 0)] ∧
    (scenarioAFinal.mem.map fun j => (j.lastRunAt, j.updatedAt)) = [(some 0, 0)] := by
  exact ⟨rfl, rfl, by decide, rfl, rfl⟩

theorem find?_updateTaskLog_self (tid : String) (f : TaskLogRow → TaskLogRow)
    (tasks : List TaskLogRow) (hf : ∀ r, (f r).id = r.id) :
    (updateTaskLog tasks tid f).find? (fun r => r.id == tid) =
      (tasks.find? fun r => r.id == tid).map f :=
  find?_updById_self hf

/-- Claim C3: retryJob returns false - and, being the catch of its
try-block, never lets an exception reach its caller - whenever the job
is unknown or its status is anything other than failed; it returns
true exactly when the status is failed, and in that case the Job Store
row is reset to pending with attempts 0 and nextRunAt now. -/
theorem C3_retryJob_contract :
    ∀ (t : Nat) (jobId : String) (s : SysState),
      (∀ e, retryJobTry t jobId s = Except.error e → retryJob t jobId s = (s, false)) ∧
      (getJobById s jobId = none → retryJob t jobId s = (s, false)) ∧
      (∀ v, getJobById s jobId = some v → v.status ≠ "failed" →
        retryJob t jobId s = (s, false)) ∧
      (((retryJob t jobId s).2 = true) ↔
        ∃ v, getJobById s jobId = some v ∧ v.status = "failed") ∧
      (∀ v r, getJobById s jobId = some v → v.status = "failed" →
        s.dbJobs.find? (fun row => row.id == jobId) = some r →
        (retryJob t jobId s).1.dbJobs.find? (fun row => row.id == jobId) =
          some { r with status := "pending", attempts := 0, nextRunAt := t, updatedAt := t }) := by
  intro t jobId s
  refine ⟨?_, ?_, ?_, ?_, ?_⟩
  · intro e h
    rw [retryJob, h]
  · intro h
    simp [retryJob, retryJobTry, h]
  · intro v hv hst
    simp [retryJob, retryJobTry, hv, hst]
  · constructor
    · intro h2
      cases hg : getJobById s jobId with
      | none =>
        rw [retryJob] at h2
        rw [retryJobTry, hg] at h2
        simp at h2
      | some v =>
        by_cases hst : v.status = "failed"
        · exact ⟨v, rfl, hst⟩
        · exfalso
          rw [retryJob] at h2
          rw [retryJobTry, hg] at h2
          simp [hst] at h2
    · rintro ⟨v, hg, hst⟩
      simp [retryJob, retryJobTry, hg, hst]
  · intro v r hv hstat hfind
    have hdb : (retryJob t jobId s).1.dbJobs =
        updRows jobId (fun row =>
          { row with status := "pending", attempts := 0, nextRunAt := t, updatedAt := t })
          s.dbJobs := by
      by_cases hm : s.inMemoryMode <;>
        simp [retryJob, retryJobTry, hv, hstat, hm]
    rw [hdb]
    rw [find?_updRows_self]
    · rw [hfind]
      rfl
    · intro row
      rfl

/-- Witness for C3: a Distributed Mode store holding one failed row,
on which retryJob answers true and resets the row; and a pending row,
on which it answers false. -/
theorem C3_retryJob_contract_witness :
    (retryJob 7 "j1" ⟨false, [], [⟨"j1", "t1", "failed", 3, 3, some "boom", 0, 0, 0⟩], [], []⟩).2
      = true ∧
    retryJob 7 "j2" ⟨false, [], [⟨"j2", "t2", "pending", 0, 3, none, 0, 0, 0⟩], [], []⟩ =
      (⟨false, [], [⟨"j2", "t2", "pending", 0, 3, none, 0, 0, 0⟩], [], []⟩, false) := by
  constructor
  · exact (C3_retryJob_contract 7 "j1" _).2.2.2.1.2
      ⟨⟨"failed", "t1", 3, 3⟩, by decide, rfl⟩
  · exact (C3_retryJob_contract 7 "j2" _).2.2.1 ⟨"pending", "t2", 0, 3⟩ (by decide) (by decide)

/-- The Distributed Mode state used to compare broker priorities: one
failed Job Store row for j1. -/
def prioState : SysState :=
  ⟨false, [], [⟨"j1", "t1", "failed", 3, 3, some "boom", 0, 0, 0⟩], [], []⟩

/-- Claim C6, evaluated on the code: a default enqueueJob hands the
broker priority 1 and a successful manual retryJob hands it priority
10; since the broker serves numerically lower values first, the value
passed by retryJob is NOT numerically lower than the default - the
retry is queued behind default-priority work, contradicting the
claimed elevated priority (the source comment says the 10 is meant as
a higher priority). -/
theorem C6_retry_priority_numerically_higher :
    enqueueDefaultPriority = 1 ∧
    ((enqueueJob 5 "j2" "t2" enqueueDefaultPriority prioState).broker.map
      fun b => (b.jobId, b.priority)) = [("j2", 1)] ∧
    ((retryJob 5 "j1" prioState).2 = true) ∧
    (((retryJob 5 "j1" prioState).1).broker.map
      fun b => (b.jobId, b.priority)) = [("j1", 10)] ∧
    ¬(10 < 1) ∧ 1 < 10 := by
  exact ⟨rfl, rfl, rfl, rfl, by decide, by decide⟩

/-- Claim C5: initializeJobQueue commits Standalone Mode (inMemoryMode
true) whenever the force flag is set or the broker connection or the
liveness ping raises; being the catch of its try-block it always
completes normally (the model is a total function).  When nothing
fails and the broker Queue class resolves, Distributed Mode is
committed. -/
theorem C5_init_falls_back_to_standalone :
    ∀ (force : Bool) (connect ping : Except String Unit) (qf : Bool),
      (force = true → initializeJobQueue force connect ping qf = true) ∧
      (∀ e, connect = Except.error e → initializeJobQueue force connect ping qf = true) ∧
      (∀ e, ping = Except.error e → initializeJobQueue force connect ping qf = true) ∧
      (force = false → connect = Except.ok () → ping = Except.ok () → qf = true →
        initializeJobQueue force connect ping qf = false) := by
  intro force connect ping qf
  refine ⟨?_, ?_, ?_, ?_⟩
  · intro h
    simp [initializeJobQueue, initializeJobQueueTry, h]
  · intro e h
    cases hf : force <;> simp [initializeJobQueue, initializeJobQueueTry, h]
  · intro e h
    cases hf : force
    · cases connect with
      | error e2 => simp [initializeJobQueue, initializeJobQueueTry]
      | ok u => simp [initializeJobQueue, initializeJobQueueTry, h]
    · simp [initializeJobQueue, initializeJobQueueTry]
  · intro h1 h2 h3 h4
    simp [initializeJobQueue, initializeJobQueueTry, h1, h2, h3, h4]

/-- Witness for C5: a failing ping commits Standalone Mode; an entirely
successful bootstrap commits Distributed Mode. -/
theorem C5_init_falls_back_to_standalone_witness :
    initializeJobQueue false (Except.ok ()) (Except.error "ECONNREFUSED") true = true ∧
    initializeJobQueue false (Except.ok ()) (Except.ok ()) true = false :=
  ⟨(C5_init_falls_back_to_standalone false (Except.ok ())
      (Except.error "ECONNREFUSED") true).2.2.1 "ECONNREFUSED" rfl,
   (C5_init_falls_back_to_standalone false (Except.ok ())
      (Except.ok ()) true).2.2.2 rfl rfl rfl rfl⟩

/-- A scheduledWorkflow task record whose taskData is present but has
no workflowId. -/
def noWorkflowIdTask : TaskLogRow :=
  ⟨"t1", "scheduledWorkflow", some ⟨none⟩, "pending", none, none, none⟩

/-- Standalone Mode with one job enqueued for the workflowId-less task. -/
def noWorkflowIdStart : SysState :=
  enqueueJob 0 "j1" "t1" 1 ⟨true, [], [], [noWorkflowIdTask], []⟩

/-- One scan over the workflowId-less scenario; the executor oracle
always throws, so a completed job proves the executor was never
invoked. -/
def noWorkflowIdFinal : SysState := applyScan boomExec 0 noWorkflowIdStart

/-- Claim C10: when the payload's task is a scheduledWorkflow whose
taskData is present but carries no (truthy) workflowId, processJob
returns success for every workflow executor without touching the task
record beyond the initial processing mark; dispatching such a job in
Standalone Mode therefore marks the job completed while the task
record stays in status processing (shown with an always-throwing
executor, so the workflow executor is provably never invoked). -/
theorem C10_missing_workflowId_silent_success :
    (∀ (exec : String → Except String Unit) (t : Nat) (tasks : List TaskLogRow)
      (data : TaskJobData) (tid : String) (row : TaskLogRow) (td : WorkflowRef),
      truthyString data.paramsTaskId = some tid →
      tasks.find? (fun r => r.id == tid) = some row →
      row.taskType = "scheduledWorkflow" →
      row.taskData = some td →
      truthyString td.workflowId = none →
      processJob exec t tasks data =
        (updateTaskLog tasks tid setTaskProcessing, Except.ok true)) ∧
    (noWorkflowIdFinal.mem.map fun j => j.status) = ["completed"] ∧
    (noWorkflowIdFinal.tasks.map fun r => (r.id, r.status, r.result, r.completedAt)) =
      [("t1", "processing", none, none)] := by
  refine ⟨?_, rfl, rfl⟩
  intro exec t tasks data tid row td htid hfind htype htd hwf
  have hfind1 : (updateTaskLog tasks tid setTaskProcessing).find? (fun r => r.id == tid) =
      some (setTaskProcessing row) := by
    rw [find?_updateTaskLog_self tid setTaskProcessing tasks fun r => rfl, hfind]
    rfl
  have htry : processJobTry exec t tasks data =
      (updateTaskLog tasks tid setTaskProcessing, Except.ok true) := by
    simp only [processJobTry, htid, hfind1]
    rw [if_pos (show (setTaskProcessing row).taskType = "scheduledWorkflow" from htype)]
    simp only [show (setTaskProcessing row).taskData = some td from htd, hwf]
  rw [processJob, htry]

/-- Witness for C10: the general part applied to the concrete
workflowId-less task. -/
theorem C10_missing_workflowId_silent_success_witness :
    processJob boomExec 0 [noWorkflowIdTask] ⟨"j1", "processTask", some "t1"⟩ =
      (updateTaskLog [noWorkflowIdTask] "t1" setTaskProcessing, Except.ok true) :=
  C10_missing_workflowId_silent_success.1 boomExec 0 [noWorkflowIdTask]
    ⟨"j1", "processTask", some "t1"⟩ "t1" noWorkflowIdTask ⟨none⟩
    rfl (by decide) rfl rfl rfl

/-- Claim C4: whenever processJob ends in an exception - the payload
carries no truthy taskId, the task row is absent, or the delegated
workflow executor throws - the same exception reaches the caller (the
result is that very error, never a normal return), and when the
payload references a task, every row with that id in the resulting
store is marked failed with the exception's message; rows for other
tasks are untouched, and processJob performs no retry bookkeeping (its
only output besides the outcome is the taskLogs store). -/
theorem C4_processJob_error_contract :
    ∀ (exec : String → Except String Unit) (t : Nat) (tasks : List TaskLogRow)
      (data : TaskJobData),
      (∀ e, (processJob exec t tasks data).2 = Except.error e →
        ∀ tid, truthyString data.paramsTaskId = some tid →
          ∀ r ∈ (processJob exec t tasks data).1, r.id = tid →
            r.status = "failed" ∧ r.error = some e) ∧
      (truthyString data.paramsTaskId = none →
        processJob exec t tasks data =
          (tasks, Except.error "Job data missing taskId in params")) ∧
      (∀ tid, truthyString data.paramsTaskId = some tid →
        tasks.find? (fun r => r.id == tid) = none →
        (processJob exec t tasks data).2 = Except.error ("Task not found: " ++ tid)) ∧
      (∀ tid row td w e, truthyString data.paramsTaskId = some tid →
        tasks.find? (fun r => r.id == tid) = some row →
        row.taskType = "scheduledWorkflow" →
        row.taskData = some td →
        truthyString td.workflowId = some w →
        exec w = Except.error e →
        (processJob exec t tasks data).2 = Except.error e) ∧
      (∀ tid, truthyString data.paramsTaskId = some tid →
        ∀ r ∈ tasks, r.id ≠ tid → r ∈ (processJob exec t tasks data).1) := by
  intro exec t tasks data
  refine ⟨?_, ?_, ?_, ?_, ?_⟩
  · intro e herr tid htid r hr hrid
    cases hP : processJobTry exec t tasks data with
    | mk ts res =>
      cases res with
      | ok b =>
        rw [processJob, hP] at herr
        simp at herr
      | error e2 =>
        have hre : e2 = e := by
          rw [processJob, hP] at herr
          simp only [htid] at herr
          simpa using herr
        subst hre
        have hr2 : r ∈ updateTaskLog ts tid (setTaskFailed e2) := by
          rw [processJob, hP] at hr
          simpa only [htid] using hr
        rcases mem_updById hr2 with ⟨r3, hr3, heq⟩
        by_cases hid3 : r3.id = tid
        · rw [if_pos (by simpa using hid3)] at heq
          rw [← heq]
          exact ⟨rfl, rfl⟩
        · rw [if_neg (by simpa using hid3)] at heq
          rw [← heq] at hrid
          exact absurd hrid hid3
  · intro h
    simp [processJob, processJobTry, h]
  · intro tid htid hnone
    have h1 : (updateTaskLog tasks tid setTaskProcessing).find? (fun r => r.id == tid)
        = none := by
      rw [find?_updateTaskLog_self tid setTaskProcessing tasks fun r => rfl, hnone]
      rfl
    simp [processJob, processJobTry, htid, h1]
  · intro tid row td w e htid hfind htype htd hwf hexec
    have h1 : (updateTaskLog tasks tid setTaskProcessing).find? (fun r => r.id == tid)
        = some (setTaskProcessing row) := by
      rw [find?_updateTaskLog_self tid setTaskProcessing tasks fun r => rfl, hfind]
      rfl
    have htry : processJobTry exec t tasks data =
        (updateTaskLog tasks tid setTaskProcessing, Except.error e) := by
      simp only [processJobTry, htid, h1]
      rw [if_pos (show (setTaskProcessing row).taskType = "scheduledWorkflow" from htype)]
      simp only [show (setTaskProcessing row).taskData = some td from htd, hwf, hexec]
    simp [processJob, htry, htid]
  · intro tid htid r hrmem hrne
    have hpres : ∀ (f : TaskLogRow → TaskLogRow) (l : List TaskLogRow), r ∈ l →
        r ∈ updateTaskLog l tid f := by
      intro f l hl
      have h2 : (if r.id == tid then f r else r) ∈ updateTaskLog l tid f :=
        mem_updById_of_mem hl
      rwa [if_neg (by simpa using hrne)] at h2
    have htryMem : r ∈ (processJobTry exec t tasks data).1 := by
      simp only [processJobTry, htid]
      split
      · exact hpres _ _ hrmem
      · split
        · split
          · split
            · split
              · exact hpres _ _ hrmem
              · exact hpres _ _ (hpres _ _ hrmem)
            · exact hpres _ _ hrmem
          · exact hpres _ _ (hpres _ _ hrmem)
        · exact hpres _ _ (hpres _ _ hrmem)
    cases hP : processJobTry exec t tasks data with
    | mk ts res =>
      rw [hP] at htryMem
      cases res with
      | ok b =>
        rw [processJob, hP]
        exact htryMem
      | error e2 =>
        rw [processJob, hP]
        simp only [htid]
        exact hpres _ _ htryMem

/-- Witness for C4: the missing-taskId failure returns the descriptive
error without touching the store, and the delegated executor's "boom"
is re-raised unchanged. -/
theorem C4_processJob_error_contract_witness :
    processJob okExec 0 [] ⟨"j1", "processTask", none⟩ =
      ([], Except.error "Job data missing taskId in params") ∧
    (processJob boomExec 3 [scenarioBTask] ⟨"j1", "processTask", some "t1"⟩).2 =
      Except.error "boom" :=
  ⟨(C4_processJob_error_contract okExec 0 [] ⟨"j1", "processTask", none⟩).2.1 rfl,
   (C4_processJob_error_contract boomExec 3 [scenarioBTask]
      ⟨"j1", "processTask", some "t1"⟩).2.2.2.1 "t1" scenarioBTask ⟨some "w1"⟩ "w1" "boom"
      rfl (by decide) rfl rfl rfl rfl⟩

/-- Claim C9: listJobs with a status filter returns only entries with
that status, at most limit of them, as an order-preserving sublist of
the store (creation equals insertion order for the in-memory list);
without a filter it returns at most limit entries in store order.  The
database branch of listJobs (the query with ORDER BY createdAt LIMIT
n) likewise returns only matching rows, at most n of them, sorted by
creation time. -/
theorem C9_listJobs_filter_limit_order :
    ∀ (st : String) (n : Nat) (mem : List InMemoryJob) (rows : List JobRow),
      (∀ j ∈ listJobs (some st) n mem, j.status = st) ∧
      (listJobs (some st) n mem).length ≤ n ∧
      (listJobs (some st) n mem).Sublist mem ∧
      (listJobs none n mem).length ≤ n ∧
      (listJobs none n mem).Sublist mem ∧
      (∀ r ∈ listJobsDb (some st) n rows, r.status = st) ∧
      (listJobsDb (some st) n rows).length ≤ n ∧
      List.Sorted byCreatedAt (listJobsDb (some st) n rows) ∧
      (listJobsDb none n rows).length ≤ n ∧
      List.Sorted byCreatedAt (listJobsDb none n rows) := by
  intro st n mem rows
  refine ⟨?_, ?_, ?_, ?_, ?_, ?_, ?_, ?_, ?_, ?_⟩
  · intro j hj
    have hj1 : j ∈ mem.filter fun j => j.status == st :=
      (List.take_sublist n _).subset hj
    simpa using List.of_mem_filter hj1
  · exact List.length_take_le n _
  · exact (List.take_sublist n _).trans (List.filter_sublist mem)
  · exact List.length_take_le n _
  · exact List.take_sublist n mem
  · intro r hr
    have hr1 : r ∈ List.insertionSort byCreatedAt (rows.filter fun r => r.status == st) :=
      (List.take_sublist n _).subset hr
    have hr2 : r ∈ rows.filter fun r => r.status == st :=
      (List.perm_insertionSort byCreatedAt _).subset hr1
    simpa using List.of_mem_filter hr2
  · exact List.length_take_le n _
  · exact List.Pairwise.sublist (List.take_sublist n _)
      (List.sorted_insertionSort byCreatedAt _)
  · exact List.length_take_le n _
  · exact List.Pairwise.sublist (List.take_sublist n _)
      (List.sorted_insertionSort byCreatedAt _)

/-- Witness for C9: on a concrete two-entry list, the failed filter
keeps only the failed job and respects the limit. -/
theorem C9_listJobs_filter_limit_order_witness :
    (⟨"j2", "t2", "failed", 3, 3, some "x", ⟨"j2", "processTask", some "t2"⟩,
      1, 1, 0, none⟩ : InMemoryJob).status = "failed" ∧
    (listJobs (some "failed") 10
      [scenarioAJob,
       ⟨"j2", "t2", "failed", 3, 3, some "x", ⟨"j2", "processTask", some "t2"⟩,
         1, 1, 0, none⟩]).length ≤ 10 :=
  ⟨(C9_listJobs_filter_limit_order "failed" 10
      [scenarioAJob,
       ⟨"j2", "t2", "failed", 3, 3, some "x", ⟨"j2", "processTask", some "t2"⟩,
         1, 1, 0, none⟩] []).1 _ (by decide),
   (C9_listJobs_filter_limit_order "failed" 10
      [scenarioAJob,
       ⟨"j2", "t2", "failed", 3, 3, some "x", ⟨"j2", "processTask", some "t2"⟩,
         1, 1, 0, none⟩] []).2.1⟩

end JobQueue
